import Mathlib

/-! # Autojudge: a shallow embedding of `autojudge.c`

The controlling process of the judge is modelled by explicit state passing.
Everything the operating system decides (whether `pipe` and `fork` succeed,
how a child ends, what `read` delivers, what `gettimeofday` reports, what an
answer file holds, which bytes an uninitialised array holds) is an input of
the model, so that every theorem quantifies over all of those.

Conventions
* a `char` is a `Nat` (its value as `unsigned char`), NUL is `0`;
* the counters are natural numbers: they start at `0` and a session raises
  each of them at most `MAX_TEST_INPUTS` times (twice for the runtime-error
  counter), far from the range of `int`;
* clock values are integers, `/` of C is `Int.tdiv` (truncation towards
  zero); the measured time is narrowed to the 32-bit `int` (`wrap_int`); the
  sum `total_execution_time += execution_time` is kept exact, its overflow
  being undefined in C;
* a function whose C execution would read or write outside an array returns
  `none`: its behaviour is undefined.
-/

set_option linter.unusedVariables false

namespace Autojudge

/-! ## Constants of the source -/

def MAX_PATH_LENGTH : Nat := 4096
def MAX_FILENAME_LENGTH : Nat := 1024
def MAX_TEST_INPUTS : Nat := 20

/-- Value of `EXIT_FAILURE` in `<stdlib.h>`. -/
def EXIT_FAILURE : Nat := 1

/-- Number of the alarm signal in `<signal.h>` (Linux). -/
def SIGALRM : Nat := 14

/-! ## Wait statuses (`<sys/wait.h>`) -/

/-- Arithmetic reading of `WEXITSTATUS(status)`, that is
`((status) & 0xff00) >> 8`. -/
def WEXITSTATUS (status : Nat) : Nat := (status / 256) % 256

/-- Arithmetic reading of `WTERMSIG(status)`, that is `(status) & 0x7f`. -/
def WTERMSIG (status : Nat) : Nat := status % 128

/-- Arithmetic reading of `WIFSIGNALED(status)`, that is
`((signed char) (((status) & 0x7f) + 1) >> 1) > 0`: the low seven bits are
neither `0` (exited) nor `0x7f` (stopped). -/
def WIFSIGNALED (status : Nat) : Bool :=
  decide (1 ≤ status % 128 ∧ status % 128 ≤ 126)

/-- How a child process ended, as `waitpid(pid, &status, 0)` can report it. -/
inductive ChildEnd where
  /-- The child called `exit(code)` or returned `code` from `main`. -/
  | exited (code : Nat)
  /-- The child was killed by signal `sig`; `core` is the core-dump flag. -/
  | signaled (sig : Nat) (core : Bool)
  deriving DecidableEq, Repr

/-- A signal number that a wait status can carry. -/
def ChildEnd.valid : ChildEnd → Prop
  | .exited _ => True
  | .signaled sig _ => 1 ≤ sig ∧ sig ≤ 126

instance (e : ChildEnd) : Decidable e.valid := by
  cases e <;> simp only [ChildEnd.valid] <;> infer_instance

/-- Wait status the kernel builds: the low eight bits of the exit code in
bits 8..15, or the signal number in bits 0..6 and the core flag in bit 7. -/
def ChildEnd.status : ChildEnd → Nat
  | .exited code => (code % 256) * 256
  | .signaled sig core => sig + (if core then 128 else 0)

/-- What became of the program a forked child tried to execute. -/
inductive Child where
  /-- The call `execlp` returned: the child goes on to `exit(EXIT_FAILURE)`. -/
  | exec_failed
  /-- The program was executed and ended as given. -/
  | ran (fin : ChildEnd)
  deriving DecidableEq, Repr

/-- End of the child process in `compile_target`, `run_target` and
`compare_output`: all three call `exit(EXIT_FAILURE)` (or `_exit`) when
`execlp` returns. -/
def Child.fin : Child → ChildEnd
  | .exec_failed => .exited EXIT_FAILURE
  | .ran fin => fin

/-- Result of `fork()` in the controlling process. -/
inductive Spawn where
  /-- The call `fork` returned a negative value. -/
  | fork_failed
  /-- The call `fork` returned the pid of a child that later ends as given. -/
  | child (c : Child)
  deriving DecidableEq, Repr

/-! ## Time -/

/-- The type `struct timeval`. -/
structure Timeval where
  tv_sec : Int
  tv_usec : Int
  deriving DecidableEq, Repr

/-- Conversion of a `long` value to the 32-bit type `int`: the value is
reduced modulo `2 ^ 32` into the range from `-2 ^ 31` to `2 ^ 31 - 1`. -/
def wrap_int (x : Int) : Int := (x + 2 ^ 31) % 2 ^ 32 - 2 ^ 31

/-- The initialiser of `int execution_time` in `run_target` and in `main`:
`(end.tv_sec - start.tv_sec) * 1000 + (end.tv_usec - start.tv_usec) / 1000`,
computed in `long` and narrowed to `int`. -/
def execution_time (start fin : Timeval) : Int :=
  wrap_int ((fin.tv_sec - start.tv_sec) * 1000 + Int.tdiv (fin.tv_usec - start.tv_usec) 1000)

/-! ## Descriptor table -/

/-- Lowest descriptor number that is not open. -/
def lowest_free (fds : List Nat) : Nat :=
  ((List.range (fds.length + 1)).find? (fun n => !fds.contains n)).getD fds.length

/-- Opening a descriptor: POSIX hands out the lowest free number. -/
def fd_open (fds : List Nat) : Nat × List Nat :=
  (lowest_free fds, lowest_free fds :: fds)

/-- A successful `pipe(fd)`: `fd[0]` (read end), `fd[1]` (write end) and the
new table. -/
def pipe (fds : List Nat) : Nat × Nat × List Nat :=
  let r := fd_open fds
  let w := fd_open r.2
  (r.1, w.1, w.2)

/-- The call `close(fd)`. -/
def close (fd : Nat) (fds : List Nat) : List Nat := fds.erase fd

/-! ## Global state -/

/-- The global counters of the source, the descriptor table of the
controlling process and a ghost counter of the calls of `compare_output`. -/
structure Judge where
  total_tests : Nat
  correct_tests : Nat
  timeout_tests : Nat
  runtime_error_tests : Nat
  wrong_answer_tests : Nat
  total_execution_time : Int
  /-- Descriptors open in the controlling process. -/
  open_fds : List Nat
  /-- Ghost: number of calls of `compare_output` so far. -/
  compare_calls : Nat
  deriving DecidableEq, Repr

/-- State at program start: every global is `0`. -/
def Judge.init (fds : List Nat) : Judge :=
  { total_tests := 0, correct_tests := 0, timeout_tests := 0, runtime_error_tests := 0,
    wrong_answer_tests := 0, total_execution_time := 0, open_fds := fds, compare_calls := 0 }

/-! ## `compile_target` -/

/-- The function `compile_target`: `-1` when `fork` fails, otherwise
`WEXITSTATUS(status)` of the toolchain process. -/
def compile_target (ev : Spawn) : Int :=
  match ev with
  | .fork_failed => -1
  | .child c => (WEXITSTATUS c.fin.status : Nat)

/-! ## `run_target` -/

/-- What the environment decides during one call of `run_target`. -/
structure RunEvents where
  /-- Whether `pipe(fd)` succeeds. -/
  pipe_ok : Bool
  /-- Result of `fork()` and end of the child. -/
  spawn : Spawn
  /-- Result of `read(fd[0], output_buffer, 4096)`: `none` for `-1`. -/
  pipe_read : Option (List Nat)
  /-- Clock value `start` of `run_target`. -/
  start : Timeval
  /-- Clock value `end` of `run_target`. -/
  fin : Timeval
  deriving DecidableEq, Repr

/-- The function `run_target`, controlling process. The time limit is only
used by the child (`alarm(timelimit)`). -/
def run_target (timelimit : Int) (ev : RunEvents) (s : Judge) : Int × Judge :=
  if !ev.pipe_ok then (-1, s)
  else
    let p := pipe s.open_fds
    let s := { s with open_fds := p.2.2 }
    match ev.spawn with
    | .fork_failed => (-1, s)
    | .child c =>
      let s := { s with open_fds := close p.2.1 s.open_fds }
      let status := c.fin.status
      let s := if WEXITSTATUS status = 1
        then { s with runtime_error_tests := s.runtime_error_tests + 1 } else s
      if WIFSIGNALED status then
        if WTERMSIG status = SIGALRM then (124, s) else (125, s)
      else
        match ev.pipe_read with
        | none => (-1, s)
        | some _ =>
          (WEXITSTATUS status,
            { s with total_execution_time :=
                s.total_execution_time + execution_time ev.start ev.fin })

/-! ## `compare_output` -/

/-- A `read` or `fread` of at most `count` bytes into an array whose current
contents are `buf`: the bytes delivered overwrite the start of the array.
Returns the number of bytes and the array. -/
def read_into (buf : List Nat) (count : Nat) (data : List Nat) : Nat × List Nat :=
  ((data.take count).length, data.take count ++ buf.drop (data.take count).length)

/-- The call `fread(expected_line, 1, MAX_FILENAME_LENGTH, expected_fp)` on a
freshly opened file: item count and array. -/
def fread (buf : List Nat) (size nmemb : Nat) (file : List Nat) : Nat × List Nat :=
  let r := read_into buf (size * nmemb) file
  (r.1 / size, r.2)

/-- The assignment `a[i] = v`; `none` when `i` is not an index of `a`. -/
def store (a : List Nat) (i : Nat) (v : Nat) : Option (List Nat) :=
  if i < a.length then some (a.set i v) else none

/-- The library function `strcmp` on two arrays: bytes are compared from the
start until they differ or both are NUL; `none` when the scan leaves an
array. -/
def strcmp : List Nat → List Nat → Option Int
  | a :: as, b :: bs =>
    if a ≠ b then some ((a : Int) - (b : Int))
    else if a = 0 then some 0
    else strcmp as bs
  | _, _ => none

/-- What the environment decides during one call of `compare_output`. -/
structure CompareEvents where
  /-- Whether `pipe(fd)` succeeds. -/
  pipe_ok : Bool
  /-- Result of `fork()` and end of the child. -/
  spawn : Spawn
  /-- Bytes held by the uninitialised `output_buffer` (1024 of them). -/
  output_stale : List Nat
  /-- Result of `read(fd[0], output_buffer, 1024)`: `none` for `-1`,
  otherwise the bytes the pipe has for this call. -/
  pipe_read : Option (List Nat)
  /-- Contents of the answer file; `none` when `fopen` fails. -/
  answer_file : Option (List Nat)
  /-- Bytes held by the uninitialised `expected_line` (1024 of them). -/
  expected_stale : List Nat
  deriving DecidableEq, Repr

/-- The function `compare_output`, controlling process. The stream
`expected_fp` holds one descriptor from `fopen` to `fclose`. -/
def compare_output (ev : CompareEvents) (s : Judge) : Option (Int × Judge) :=
  let s := { s with compare_calls := s.compare_calls + 1 }
  if !ev.pipe_ok then some (-1, s)
  else
    let p := pipe s.open_fds
    let s := { s with open_fds := p.2.2 }
    match ev.spawn with
    | .fork_failed => some (-1, s)
    | .child _ =>
      let s := { s with open_fds := close p.2.1 s.open_fds }
      let bytes_read := ev.pipe_read
      let s := { s with open_fds := close p.1 s.open_fds }
      match bytes_read with
      | none => some (-1, s)
      | some data =>
        let output_buffer := (read_into ev.output_stale MAX_FILENAME_LENGTH data).2
        match ev.answer_file with
        | none => some (-1, s)
        | some file =>
          let expected_fp := fd_open s.open_fds
          let s := { s with open_fds := expected_fp.2 }
          let r := fread ev.expected_stale 1 MAX_FILENAME_LENGTH file
          let bytes_read2 := r.1
          match store r.2 bytes_read2 0 with
          | none => none
          | some expected_line =>
            let s := { s with open_fds := close expected_fp.1 s.open_fds }
            match strcmp output_buffer expected_line with
            | none => none
            | some c => if c = 0 then some (1, s) else some (0, s)

/-! ## `main` -/

/-- One entry returned by `readdir`, with everything the environment decides
while `main` handles it. -/
structure Dirent where
  /-- Whether `ent->d_type == DT_REG`. -/
  is_reg : Bool
  /-- Whether `access(answer_file_path, F_OK) != -1`. -/
  answer_exists : Bool
  /-- Events of the call of `run_target`. -/
  run : RunEvents
  /-- Clock value `start_time` of `main`. -/
  start_time : Timeval
  /-- Clock value `end_time` of `main`. -/
  end_time : Timeval
  /-- Events of the call of `compare_output`, if it is called. -/
  cmp : CompareEvents
  deriving DecidableEq, Repr

/-- Body of `if (access(answer_file_path, F_OK) != -1)` in `main`: the
handling of one admitted test case. -/
def main_test_case (timelimit : Int) (e : Dirent) (s : Judge) : Option Judge :=
  let s := { s with total_tests := s.total_tests + 1 }
  let r := run_target timelimit e.run s
  let run_result := r.1
  let s := r.2
  let s := { s with total_execution_time :=
    s.total_execution_time + execution_time e.start_time e.end_time }
  if run_result = 0 then
    match compare_output e.cmp s with
    | none => none
    | some (compare_result, s) =>
      if compare_result = 1 then some { s with correct_tests := s.correct_tests + 1 }
      else if compare_result = 0 then
        some { s with wrong_answer_tests := s.wrong_answer_tests + 1 }
      else some s
  else if run_result = 125 then
    some { s with runtime_error_tests := s.runtime_error_tests + 1 }
  else if run_result = 124 then some { s with timeout_tests := s.timeout_tests + 1 }
  else some s

/-- The loop `while ((ent = readdir(dir)) != NULL && test_count < MAX_TEST_INPUTS)`
of `main` over the entries still to come. -/
def main_loop (timelimit : Int) : List Dirent → Nat → Judge → Option Judge
  | [], _, s => some s
  | e :: rest, test_count, s =>
    if test_count < MAX_TEST_INPUTS then
      if e.is_reg then
        if e.answer_exists then
          match main_test_case timelimit e s with
          | none => none
          | some s => main_loop timelimit rest (test_count + 1) s
        else main_loop timelimit rest (test_count + 1) s
      else main_loop timelimit rest test_count s
    else some s

/-- One result of `getopt(argc, argv, "i:a:t:")` other than `-1`. -/
inductive Opt where
  | i (optarg : String)
  | a (optarg : String)
  /-- Option `-t`; the field is `atoi(optarg)`. -/
  | t (atoi_optarg : Int)
  /-- Any other result (the `default` case). -/
  | other
  deriving DecidableEq, Repr

/-- Local variables of `main` set by the option loop. -/
structure Parsed where
  inputdir : Option String
  answerdir : Option String
  timelimit : Int
  deriving DecidableEq, Repr

/-- The loop over `getopt`: `none` when the `default` case returns. -/
def parse_opts : List Opt → Parsed → Option Parsed
  | [], p => some p
  | .i x :: rest, p => parse_opts rest { p with inputdir := some x }
  | .a x :: rest, p => parse_opts rest { p with answerdir := some x }
  | .t n :: rest, p => parse_opts rest { p with timelimit := n }
  | .other :: _, _ => none

/-- Everything one run of the judge receives from its environment. -/
structure Session where
  argc : Nat
  /-- Successive results of `getopt`. -/
  opts : List Opt
  /-- The argument `argv[optind]` when `optind < argc`. -/
  target_src : Option String
  /-- Value held by the uninitialised local `timelimit`. -/
  timelimit_stale : Int
  /-- Events of `compile_target`. -/
  compile : Spawn
  /-- Listing of the input directory; `none` when `opendir` fails. -/
  dir : Option (List Dirent)
  /-- Descriptors open at program start. -/
  fds : List Nat
  deriving DecidableEq, Repr

/-- The function `main`: exit status and final state. -/
def main (sess : Session) : Option (Int × Judge) :=
  let s := Judge.init sess.fds
  if sess.argc ≠ 8 then some (1, s)
  else
    match parse_opts sess.opts
        { inputdir := none, answerdir := none, timelimit := sess.timelimit_stale } with
    | none => some (1, s)
    | some p =>
      if p.inputdir.isNone || p.answerdir.isNone || sess.target_src.isNone then some (1, s)
      else
        let compile_result := compile_target sess.compile
        if compile_result ≠ 0 then some (1, s)
        else
          match sess.dir with
          | none => some (1, s)
          | some entries =>
            let d := fd_open s.open_fds
            let s := { s with open_fds := d.2 }
            match main_loop p.timelimit entries 0 s with
            | none => none
            | some s => some (0, { s with open_fds := close d.1 s.open_fds })

/-! ## Notions used by the statements -/

/-- Exactly one of the four outcome counters is one higher in `t` than in
`s`; the other three are equal. -/
def one_counter_incremented (s t : Judge) : Prop :=
  (t.correct_tests = s.correct_tests + 1 ∧ t.wrong_answer_tests = s.wrong_answer_tests ∧
    t.timeout_tests = s.timeout_tests ∧ t.runtime_error_tests = s.runtime_error_tests) ∨
  (t.correct_tests = s.correct_tests ∧ t.wrong_answer_tests = s.wrong_answer_tests + 1 ∧
    t.timeout_tests = s.timeout_tests ∧ t.runtime_error_tests = s.runtime_error_tests) ∨
  (t.correct_tests = s.correct_tests ∧ t.wrong_answer_tests = s.wrong_answer_tests ∧
    t.timeout_tests = s.timeout_tests + 1 ∧ t.runtime_error_tests = s.runtime_error_tests) ∨
  (t.correct_tests = s.correct_tests ∧ t.wrong_answer_tests = s.wrong_answer_tests ∧
    t.timeout_tests = s.timeout_tests ∧ t.runtime_error_tests = s.runtime_error_tests + 1)

/-- None of the four outcome counters differs between `s` and `t`. -/
def no_counter_changed (s t : Judge) : Prop :=
  t.correct_tests = s.correct_tests ∧ t.wrong_answer_tests = s.wrong_answer_tests ∧
    t.timeout_tests = s.timeout_tests ∧ t.runtime_error_tests = s.runtime_error_tests

/-- Wait statuses of a spawn that `waitpid` can report. -/
def Spawn.valid : Spawn → Prop
  | .fork_failed => True
  | .child c => c.fin.valid

/-- Test case whose run ends in a way the code classifies: the child is
killed by a signal, or exits with status 1, or exits with status 124 or 125
and `read` succeeds in `run_target`, or exits with status 0, `read` succeeds
in `run_target`, and `pipe`, `fork`, `read` and `fopen` succeed in
`compare_output`. -/
def Dirent.classified (e : Dirent) : Prop :=
  e.run.pipe_ok = true ∧
  match e.run.spawn with
  | .fork_failed => False
  | .child c =>
    match c.fin with
    | .signaled _ _ => True
    | .exited code =>
      code % 256 = 1 ∨
      (e.run.pipe_read.isSome = true ∧
        (code % 256 = 124 ∨ code % 256 = 125 ∨
          (code % 256 = 0 ∧ e.cmp.pipe_ok = true ∧ e.cmp.spawn ≠ .fork_failed ∧
            e.cmp.pipe_read.isSome = true ∧ e.cmp.answer_file.isSome = true)))

/-- Every wait status of the session is one that `waitpid` can report. -/
def Session.valid (sess : Session) : Prop :=
  match sess.dir with
  | none => True
  | some entries => ∀ e ∈ entries, e.run.spawn.valid

instance (sp : Spawn) : Decidable sp.valid := by
  cases sp <;> simp only [Spawn.valid] <;> infer_instance

instance (sess : Session) : Decidable sess.valid := by
  unfold Session.valid
  split <;> infer_instance

/-- Sum of the four outcome counters. -/
def Judge.classified_tests (s : Judge) : Nat :=
  s.correct_tests + s.wrong_answer_tests + s.timeout_tests + s.runtime_error_tests

/-- Comparison events under which `compare_output` stays inside its arrays
and sees the captured output as a C string: both texts are NUL-free and
shorter than the arrays, and `output_buffer` happens to hold a NUL right
after the bytes that were read. -/
def CompareEvents.safe (ev : CompareEvents) : Prop :=
  ∀ out ans, ev.pipe_read = some out → ev.answer_file = some ans →
    out.length < MAX_FILENAME_LENGTH ∧ ans.length < MAX_FILENAME_LENGTH ∧
    ev.expected_stale.length = MAX_FILENAME_LENGTH ∧
    ev.output_stale[out.length]? = some 0 ∧ 0 ∉ out ∧ 0 ∉ ans

/-! ## Concrete inputs -/

/-- A run whose child ends as `fin`; `run_target` measures 7 ms. -/
def sample_run (fin : ChildEnd) : RunEvents :=
  { pipe_ok := true, spawn := .child (.ran fin), pipe_read := some [51],
    start := { tv_sec := 100, tv_usec := 999000 }, fin := { tv_sec := 101, tv_usec := 6000 } }

/-- A comparison in which the candidate prints `3`, the answer file holds `3`
and both arrays start out zeroed. -/
def sample_cmp : CompareEvents :=
  { pipe_ok := true, spawn := .child (.ran (.exited 0)),
    output_stale := List.replicate 1024 0, pipe_read := some [51],
    answer_file := some [51], expected_stale := List.replicate 1024 0 }

/-- An admitted test case whose run ends as `fin`; `main` measures 8 ms. -/
def sample_entry (fin : ChildEnd) : Dirent :=
  { is_reg := true, answer_exists := true, run := sample_run fin,
    start_time := { tv_sec := 100, tv_usec := 998000 },
    end_time := { tv_sec := 101, tv_usec := 6000 }, cmp := sample_cmp }

/-- The comparison of `sample_cmp` when `output_buffer` starts out holding
the text `12345` (as left on the stack by an earlier call that read it)
followed by NUL bytes. -/
def stale_cmp : CompareEvents :=
  { sample_cmp with output_stale := [49, 50, 51, 52, 53] ++ List.replicate 1019 0 }

/-- The comparison of `sample_cmp` against an answer file of 1024 bytes `A`. -/
def long_answer_cmp : CompareEvents :=
  { sample_cmp with answer_file := some (List.replicate 1024 65) }

/-- An admitted test case whose child exits with status 0 and whose answer
file exists but cannot be opened by `fopen`. -/
def unopenable_entry : Dirent :=
  { sample_entry (.exited 0) with cmp := { sample_cmp with answer_file := none } }

/-- A regular input file without answer file. -/
def orphan_entry : Dirent :=
  { sample_entry (.exited 0) with answer_exists := false }

/-- A session with well-formed arguments, a successful compilation and the
given listing. -/
def sample_session (entries : List Dirent) : Session :=
  { argc := 8, opts := [.i "in", .a "ans", .t 1], target_src := some "sol.c",
    timelimit_stale := 0, compile := .child (.ran (.exited 0)), dir := some entries,
    fds := [0, 1, 2] }

/-- A session with well-formed arguments in which the toolchain process is
killed by signal 9 (`SIGKILL`) and the listing holds one admitted test case
(an executable `target_program` of an earlier build is still in place). -/
def killed_toolchain_session : Session :=
  { sample_session [sample_entry (.exited 0)] with
    compile := .child (.ran (.signaled 9 false)) }

set_option maxRecDepth 100000

/-! ## Supporting lemmas -/

/-- A run of 3000000 seconds: the measured time of 3000000000 ms does not
fit `int` and is narrowed to -1294967296. -/
theorem execution_time_narrowed :
    execution_time { tv_sec := 0, tv_usec := 0 } { tv_sec := 3000000, tv_usec := 0 }
      = -1294967296 := by
  decide

/-- A toolchain process killed by a signal has `WEXITSTATUS` 0:
`compile_target` reports it like a successful compilation. -/
theorem compile_target_signaled (sig : Nat) (core : Bool)
    (h : (ChildEnd.signaled sig core).valid) :
    compile_target (.child (.ran (.signaled sig core))) = 0 := by
  simp only [ChildEnd.valid] at h
  cases core <;> simp [compile_target, Child.fin, WEXITSTATUS, ChildEnd.status] <;> omega

theorem WEXITSTATUS_exited (code : Nat) :
    WEXITSTATUS (ChildEnd.exited code).status = code % 256 := by
  simp only [WEXITSTATUS, ChildEnd.status]; omega

theorem WIFSIGNALED_exited (code : Nat) :
    WIFSIGNALED (ChildEnd.exited code).status = false := by
  simp only [WIFSIGNALED, ChildEnd.status, decide_eq_false_iff_not]; omega

theorem WEXITSTATUS_signaled (sig : Nat) (core : Bool) (h : (ChildEnd.signaled sig core).valid) :
    WEXITSTATUS (ChildEnd.signaled sig core).status = 0 := by
  simp only [ChildEnd.valid] at h
  cases core <;> simp [WEXITSTATUS, ChildEnd.status] <;> omega

theorem WIFSIGNALED_signaled (sig : Nat) (core : Bool) (h : (ChildEnd.signaled sig core).valid) :
    WIFSIGNALED (ChildEnd.signaled sig core).status = true := by
  simp only [ChildEnd.valid] at h
  cases core <;> simp [WIFSIGNALED, ChildEnd.status] <;> omega

theorem WTERMSIG_signaled (sig : Nat) (core : Bool) (h : (ChildEnd.signaled sig core).valid) :
    WTERMSIG (ChildEnd.signaled sig core).status = sig := by
  simp only [ChildEnd.valid] at h
  cases core <;> simp [WTERMSIG, ChildEnd.status] <;> omega

/-- Run of `run_target` whose child is killed by a signal. -/
theorem run_target_signaled (timelimit : Int) (ev : RunEvents) (s : Judge) (c : Child)
    (sig : Nat) (core : Bool) (hp : ev.pipe_ok = true) (hs : ev.spawn = .child c)
    (hc : c.fin = .signaled sig core) (hv : (ChildEnd.signaled sig core).valid) :
    run_target timelimit ev s =
      (if sig = SIGALRM then 124 else 125,
        { s with open_fds := close (pipe s.open_fds).2.1 (pipe s.open_fds).2.2 }) := by
  simp only [run_target, hp, hs, hc, WEXITSTATUS_signaled sig core hv,
    WIFSIGNALED_signaled sig core hv, WTERMSIG_signaled sig core hv]
  by_cases h : sig = SIGALRM <;> simp [h]

/-- Run of `run_target` whose child exits. -/
theorem run_target_exited (timelimit : Int) (ev : RunEvents) (s : Judge) (c : Child)
    (code : Nat) (hp : ev.pipe_ok = true) (hs : ev.spawn = .child c)
    (hc : c.fin = .exited code) :
    run_target timelimit ev s =
      (match ev.pipe_read with
        | none => -1
        | some _ => ((code % 256 : Nat) : Int),
        { s with
          open_fds := close (pipe s.open_fds).2.1 (pipe s.open_fds).2.2
          runtime_error_tests :=
            if code % 256 = 1 then s.runtime_error_tests + 1 else s.runtime_error_tests
          total_execution_time :=
            match ev.pipe_read with
            | none => s.total_execution_time
            | some _ => s.total_execution_time + execution_time ev.start ev.fin }) := by
  simp only [run_target, hp, hs, hc, WEXITSTATUS_exited, WIFSIGNALED_exited]
  by_cases h : code % 256 = 1 <;> cases ev.pipe_read <;> simp [h]

/-- A defined call of `compare_output` returns `-1`, `0` or `1`, counts one
call and changes nothing else but the descriptor table. -/
theorem compare_output_frame (ev : CompareEvents) (s t : Judge) (r : Int)
    (h : compare_output ev s = some (r, t)) :
    (r = -1 ∨ r = 0 ∨ r = 1) ∧
      t = { s with open_fds := t.open_fds, compare_calls := s.compare_calls + 1 } := by
  unfold compare_output at h
  simp only [] at h
  split at h
  · simp only [Option.some.injEq, Prod.mk.injEq] at h
    obtain ⟨rfl, rfl⟩ := h
    simp
  · split at h
    · simp only [Option.some.injEq, Prod.mk.injEq] at h
      obtain ⟨rfl, rfl⟩ := h
      simp
    · split at h
      · simp only [Option.some.injEq, Prod.mk.injEq] at h
        obtain ⟨rfl, rfl⟩ := h
        simp
      · split at h
        · simp only [Option.some.injEq, Prod.mk.injEq] at h
          obtain ⟨rfl, rfl⟩ := h
          simp
        · split at h
          · exact absurd h (by simp)
          · split at h
            · exact absurd h (by simp)
            · split at h <;>
              · simp only [Option.some.injEq, Prod.mk.injEq] at h
                obtain ⟨rfl, rfl⟩ := h
                simp

theorem compare_output_classified (ev : CompareEvents) (s t : Judge) (r : Int)
    (h : compare_output ev s = some (r, t)) (hp : ev.pipe_ok = true)
    (hs : ev.spawn ≠ .fork_failed) (hr : ev.pipe_read.isSome = true)
    (ha : ev.answer_file.isSome = true) : r = 0 ∨ r = 1 := by
  unfold compare_output at h
  cases hsp : ev.spawn with
  | fork_failed => exact absurd hsp hs
  | child c =>
    cases hpr : ev.pipe_read with
    | none => simp [hpr] at hr
    | some data =>
      cases haf : ev.answer_file with
      | none => simp [haf] at ha
      | some file =>
        simp only [hp, hsp, hpr, haf, Bool.not_true, Bool.false_eq_true, if_false] at h
        split at h
        · exact absurd h (by simp)
        · split at h
          · exact absurd h (by simp)
          · split at h <;>
            · simp only [Option.some.injEq, Prod.mk.injEq] at h
              omega

theorem main_test_case_counters (timelimit : Int) (e : Dirent) (s t : Judge)
    (hv : e.run.spawn.valid) (h : main_test_case timelimit e s = some t) :
    t.total_tests = s.total_tests + 1 ∧
      (one_counter_incremented s t ∨ no_counter_changed s t) ∧
      (e.classified → one_counter_incremented s t) := by
  unfold main_test_case at h
  cases hp : e.run.pipe_ok with
  | false =>
    simp [run_target, hp] at h
    subst h
    simp [no_counter_changed, Dirent.classified, hp]
  | true =>
    cases hs : e.run.spawn with
    | fork_failed =>
      simp [run_target, hp, hs] at h
      subst h
      simp [no_counter_changed, Dirent.classified, hp, hs]
    | child c =>
      cases hc : c.fin with
      | signaled sig core =>
        have hv2 : (ChildEnd.signaled sig core).valid := by
          simpa [Spawn.valid, hs, hc] using hv
        have hrt := fun s0 => run_target_signaled timelimit e.run s0 c sig core hp hs hc hv2
        simp only [hrt] at h
        by_cases hsig : sig = SIGALRM
        · simp [hsig] at h
          subst h
          simp [one_counter_incremented]
        · simp [hsig] at h
          subst h
          simp [one_counter_incremented]
      | exited code =>
        have hrt := fun s0 => run_target_exited timelimit e.run s0 c code hp hs hc
        simp only [hrt] at h
        simp only [Dirent.classified, hp, hs, hc]
        generalize code % 256 = m at h ⊢
        cases hr : e.run.pipe_read with
        | none =>
          simp [hr] at h
          subst h
          by_cases hm : m = 1 <;> simp [hm, one_counter_incremented, no_counter_changed]
        | some out =>
          simp only [hr] at h
          by_cases h0 : m = 0
          · subst h0
            simp only [Nat.cast_zero, if_true] at h
            split at h
            · exact absurd h (by simp)
            · rename_i r u hcmp
              obtain ⟨hr3, hu⟩ := compare_output_frame _ _ _ _ hcmp
              have hcl := compare_output_classified _ _ _ _ hcmp
              simp only [] at hu
              split at h
              · simp only [Option.some.injEq] at h
                subst h
                rw [hu]
                simp [one_counter_incremented]
              · split at h
                · simp only [Option.some.injEq] at h
                  subst h
                  rw [hu]
                  simp [one_counter_incremented]
                · simp only [Option.some.injEq] at h
                  subst h
                  rw [hu]
                  refine ⟨by simp, Or.inr (by simp [no_counter_changed]), ?_⟩
                  intro hcls
                  simp at hcls
                  have := hcl hcls.1 hcls.2.1 hcls.2.2.1 hcls.2.2.2
                  omega
          · by_cases h1 : m = 1
            · subst h1
              simp at h
              subst h
              simp [one_counter_incremented]
            · by_cases h125 : m = 125
              · subst h125
                simp at h
                subst h
                simp [one_counter_incremented]
              · by_cases h124 : m = 124
                · subst h124
                  simp at h
                  subst h
                  simp [one_counter_incremented]
                · have e0 : ¬ ((m : Int) = 0) := by omega
                  have e125 : ¬ ((m : Int) = 125) := by omega
                  have e124 : ¬ ((m : Int) = 124) := by omega
                  simp [e0, e125, e124, h1] at h
                  subst h
                  simp [no_counter_changed, h0, h1, h125, h124]

theorem run_target_total_tests (timelimit : Int) (ev : RunEvents) (s : Judge) :
    (run_target timelimit ev s).2.total_tests = s.total_tests := by
  unfold run_target
  simp only []
  split
  · rfl
  · split
    · rfl
    · split <;> split <;> (try split) <;> rfl

theorem main_test_case_total_tests (timelimit : Int) (e : Dirent) (s t : Judge)
    (h : main_test_case timelimit e s = some t) : t.total_tests = s.total_tests + 1 := by
  unfold main_test_case at h
  simp only [] at h
  have hrt := run_target_total_tests timelimit e.run
    { s with total_tests := s.total_tests + 1 }
  simp only [] at hrt
  split at h
  · split at h
    · exact absurd h (by simp)
    · rename_i r u hcmp
      have hu := (compare_output_frame _ _ _ _ hcmp).2
      simp only [] at hu
      split at h
      · simp only [Option.some.injEq] at h
        subst h
        rw [hu]
        simpa using hrt
      · split at h <;>
        · simp only [Option.some.injEq] at h
          subst h
          rw [hu]
          simpa using hrt
  · split at h
    · simp only [Option.some.injEq] at h
      subst h
      simpa using hrt
    · split at h <;>
      · simp only [Option.some.injEq] at h
        subst h
        simpa using hrt

theorem main_loop_total_tests (timelimit : Int) :
    ∀ (l : List Dirent) (k : Nat) (s t : Judge), main_loop timelimit l k s = some t →
      t.total_tests = s.total_tests +
        ((l.filter (fun e => e.is_reg)).take (MAX_TEST_INPUTS - k)).countP
          (fun e => e.answer_exists) := by
  intro l
  induction l with
  | nil =>
    intro k s t h
    simp only [main_loop, Option.some.injEq] at h
    subst h
    simp
  | cons e rest ih =>
    intro k s t h
    unfold main_loop at h
    by_cases hk : k < MAX_TEST_INPUTS
    · obtain ⟨m, hm⟩ : ∃ m, MAX_TEST_INPUTS - k = m + 1 := ⟨MAX_TEST_INPUTS - k - 1, by omega⟩
      have hm2 : MAX_TEST_INPUTS - (k + 1) = m := by omega
      simp only [hk, if_true] at h
      cases hreg : e.is_reg with
      | false =>
        simp only [hreg, Bool.false_eq_true, if_false] at h
        have := ih k s t h
        simpa [List.filter_cons, hreg] using this
      | true =>
        simp only [hreg, if_true] at h
        cases hans : e.answer_exists with
        | false =>
          simp only [hans, Bool.false_eq_true, if_false] at h
          have := ih (k + 1) s t h
          rw [hm2] at this
          simp [List.filter_cons, hreg, hm, hans, this]
        | true =>
          simp only [hans, if_true] at h
          split at h
          · exact absurd h (by simp)
          · rename_i u hu
            have h1 := main_test_case_total_tests timelimit e s u hu
            have := ih (k + 1) u t h
            rw [hm2] at this
            simp [List.filter_cons, hreg, hm, hans, this, h1]
            omega
    · simp only [hk, if_false, Option.some.injEq] at h
      subst h
      have : MAX_TEST_INPUTS - k = 0 := by omega
      simp [this]

theorem main_loop_classified_le (timelimit : Int) :
    ∀ (l : List Dirent) (k : Nat) (s t : Judge), (∀ e ∈ l, e.run.spawn.valid) →
      main_loop timelimit l k s = some t → s.classified_tests ≤ s.total_tests →
      t.classified_tests ≤ t.total_tests := by
  intro l
  induction l with
  | nil =>
    intro k s t _ h hs
    simp only [main_loop, Option.some.injEq] at h
    subst h
    exact hs
  | cons e rest ih =>
    intro k s t hv h hs
    have hvr : ∀ x ∈ rest, x.run.spawn.valid := fun x hx => hv x (List.mem_cons_of_mem _ hx)
    unfold main_loop at h
    split at h
    · split at h
      · split at h
        · split at h
          · exact absurd h (by simp)
          · rename_i u hu
            refine ih (k + 1) u t hvr h ?_
            obtain ⟨h1, h2, _⟩ :=
              main_test_case_counters timelimit e s u (hv e (List.mem_cons_self _ _)) hu
            simp only [Judge.classified_tests]
            simp only [Judge.classified_tests] at hs
            rcases h2 with h2 | h2
            · rcases h2 with h3 | h3 | h3 | h3 <;> omega
            · simp only [no_counter_changed] at h2
              omega
        · exact ih (k + 1) s t hvr h hs
      · exact ih k s t hvr h hs
    · simp only [Option.some.injEq] at h
      subst h
      exact hs

/-- Final state of a completed session, in terms of the loop. -/
theorem main_completed (sess : Session) (rc : Int) (st : Judge)
    (h : main sess = some (rc, st)) :
    (rc = 1 ∧ st = Judge.init sess.fds) ∨
      ∃ entries timelimit u, sess.dir = some entries ∧ rc = 0 ∧
        main_loop timelimit entries 0
          { Judge.init sess.fds with open_fds := (fd_open sess.fds).2 } = some u ∧
        st = { u with open_fds := close (fd_open sess.fds).1 u.open_fds } := by
  unfold main at h
  simp only [] at h
  split at h
  · simp only [Option.some.injEq, Prod.mk.injEq] at h
    exact Or.inl ⟨h.1.symm, h.2.symm⟩
  · split at h
    · simp only [Option.some.injEq, Prod.mk.injEq] at h
      exact Or.inl ⟨h.1.symm, h.2.symm⟩
    · split at h
      · simp only [Option.some.injEq, Prod.mk.injEq] at h
        exact Or.inl ⟨h.1.symm, h.2.symm⟩
      · split at h
        · simp only [Option.some.injEq, Prod.mk.injEq] at h
          exact Or.inl ⟨h.1.symm, h.2.symm⟩
        · split at h
          · simp only [Option.some.injEq, Prod.mk.injEq] at h
            exact Or.inl ⟨h.1.symm, h.2.symm⟩
          · rename_i entries hdir
            split at h
            · exact absurd h (by simp)
            · rename_i u hu
              simp only [Option.some.injEq, Prod.mk.injEq] at h
              exact Or.inr ⟨entries, _, u, hdir, h.1.symm, hu, h.2.symm⟩

theorem lowest_free_not_mem (fds : List Nat) : lowest_free fds ∉ fds := by
  unfold lowest_free
  cases h : (List.range (fds.length + 1)).find? (fun n => !fds.contains n) with
  | some n =>
    have := List.find?_some h
    simpa using this
  | none =>
    rw [List.find?_eq_none] at h
    have hsub : List.range (fds.length + 1) ⊆ fds := fun n hn => by
      have := h n hn
      simpa using this
    have hle := (List.subperm_of_subset (List.nodup_range _) hsub).length_le
    simp at hle

/-- Whenever `pipe` and `fork` succeed, `run_target` returns with the
read end of its pipe still open: the table has grown by a descriptor that
was not open before. -/
theorem run_target_open_fds (timelimit : Int) (ev : RunEvents) (s : Judge) (c : Child)
    (hp : ev.pipe_ok = true) (hs : ev.spawn = .child c) :
    (run_target timelimit ev s).2.open_fds = lowest_free s.open_fds :: s.open_fds ∧
      lowest_free s.open_fds ∉ s.open_fds := by
  refine ⟨?_, lowest_free_not_mem _⟩
  unfold run_target
  simp only [hp, hs, pipe, fd_open, close, List.erase_cons_head, Bool.not_true,
    Bool.false_eq_true, if_false]
  split <;> split <;> (try split) <;> rfl

/-- Whenever `pipe` and `fork` succeed and the result is defined,
`compare_output` returns with the descriptor table it was called with. -/
theorem compare_output_open_fds (ev : CompareEvents) (s t : Judge) (r : Int) (c : Child)
    (hp : ev.pipe_ok = true) (hs : ev.spawn = .child c)
    (h : compare_output ev s = some (r, t)) : t.open_fds = s.open_fds := by
  unfold compare_output at h
  simp only [hp, hs, pipe, fd_open, close, List.erase_cons_head, Bool.not_true,
    Bool.false_eq_true, if_false] at h
  split at h
  · simp only [Option.some.injEq, Prod.mk.injEq] at h
    rw [← h.2]
  · split at h
    · simp only [Option.some.injEq, Prod.mk.injEq] at h
      rw [← h.2]
    · split at h
      · exact absurd h (by simp)
      · split at h
        · exact absurd h (by simp)
        · split at h <;>
          · simp only [Option.some.injEq, Prod.mk.injEq] at h
            rw [← h.2]

/-- When `fork` fails, `run_target` and `compare_output` return -1 with both
ends of the pipe still open. -/
theorem fork_failed_open_fds (timelimit : Int) (rv : RunEvents) (cv : CompareEvents)
    (s : Judge) (hr : rv.pipe_ok = true) (hrs : rv.spawn = .fork_failed)
    (hc : cv.pipe_ok = true) (hcs : cv.spawn = .fork_failed) :
    run_target timelimit rv s = (-1, { s with open_fds := (pipe s.open_fds).2.2 }) ∧
      compare_output cv s = some (-1, { s with open_fds := (pipe s.open_fds).2.2,
                                               compare_calls := s.compare_calls + 1 }) := by
  constructor
  · simp [run_target, hr, hrs]
  · simp [compare_output, hc, hcs]

/-- On the path of `run_target` that returns the exit status, the time
total grows by the time measured inside `run_target` and by the time
measured by `main`. -/
theorem exited_run_total_time (timelimit : Int) (e : Dirent) (s t : Judge) (c : Child)
    (code : Nat) (out : List Nat) (hp : e.run.pipe_ok = true) (hs : e.run.spawn = .child c)
    (hc : c.fin = .exited code) (hr : e.run.pipe_read = some out)
    (h : main_test_case timelimit e s = some t) :
    t.total_execution_time = s.total_execution_time +
      execution_time e.run.start e.run.fin + execution_time e.start_time e.end_time := by
  have hrt := fun s0 => run_target_exited timelimit e.run s0 c code hp hs hc
  unfold main_test_case at h
  simp only [hrt, hr] at h
  split at h
  · split at h
    · exact absurd h (by simp)
    · rename_i r u hcmp
      have hu := (compare_output_frame _ _ _ _ hcmp).2
      simp only [] at hu
      split at h
      · simp only [Option.some.injEq] at h
        subst h
        rw [hu]
      · split at h <;>
        · simp only [Option.some.injEq] at h
          subst h
          rw [hu]
  · split at h
    · simp only [Option.some.injEq] at h
      subst h
      rfl
    · split at h <;>
      · simp only [Option.some.injEq] at h
        subst h
        rfl

/-- On the paths of `run_target` that return 124 or 125 for a signal, the
time total grows by the time measured by `main` only. -/
theorem signaled_run_total_time (timelimit : Int) (e : Dirent) (s t : Judge) (c : Child)
    (sig : Nat) (core : Bool) (hp : e.run.pipe_ok = true) (hs : e.run.spawn = .child c)
    (hc : c.fin = .signaled sig core) (hv : (ChildEnd.signaled sig core).valid)
    (h : main_test_case timelimit e s = some t) :
    t.total_execution_time =
      s.total_execution_time + execution_time e.start_time e.end_time := by
  have hrt := fun s0 => run_target_signaled timelimit e.run s0 c sig core hp hs hc hv
  unfold main_test_case at h
  simp only [hrt] at h
  by_cases hsig : sig = SIGALRM
  · simp [hsig] at h
    subst h
    rfl
  · simp [hsig] at h
    subst h
    rfl

/-- The item count returned by the `fread` of `compare_output` is the length
of the answer file capped at `MAX_FILENAME_LENGTH`; it is an index of
`expected_line` exactly when the file is shorter than the array. -/
theorem fread_count (buf file : List Nat) :
    (fread buf 1 MAX_FILENAME_LENGTH file).1 = min MAX_FILENAME_LENGTH file.length ∧
      ((fread buf 1 MAX_FILENAME_LENGTH file).1 < MAX_FILENAME_LENGTH ↔
        file.length < MAX_FILENAME_LENGTH) := by
  simp only [fread, read_into, Nat.one_mul, Nat.div_one, List.length_take]
  constructor
  · trivial
  · omega

/-- On two NUL-free texts, each followed by a NUL, `strcmp` is defined and
returns 0 exactly when the texts are equal. -/
theorem strcmp_terminated :
    ∀ (out ans r1 r2 : List Nat), 0 ∉ out → 0 ∉ ans →
      ∃ c, strcmp (out ++ 0 :: r1) (ans ++ 0 :: r2) = some c ∧ (c = 0 ↔ out = ans) := by
  intro out
  induction out with
  | nil =>
    intro ans r1 r2 _ ha
    cases ans with
    | nil => exact ⟨0, by simp [strcmp], by simp⟩
    | cons b bs =>
      have hb : (0 : Nat) ≠ b := fun hb => ha (by simp [hb])
      refine ⟨(0 : Int) - (b : Int), by simp [strcmp, hb], ?_⟩
      constructor
      · intro h
        omega
      · intro h
        cases h
  | cons a as ih =>
    intro ans r1 r2 ho ha
    have ha0 : a ≠ 0 := fun h => ho (by simp [h])
    have has : 0 ∉ as := fun h => ho (List.mem_cons_of_mem _ h)
    cases ans with
    | nil =>
      refine ⟨(a : Int) - (0 : Nat), by simp [strcmp, ha0], ?_⟩
      constructor
      · intro h
        simp at h
        omega
      · intro h
        cases h
    | cons b bs =>
      have hbs : 0 ∉ bs := fun h => ha (List.mem_cons_of_mem _ h)
      by_cases hab : a = b
      · subst hab
        obtain ⟨c, hc, hiff⟩ := ih bs r1 r2 has hbs
        refine ⟨c, by simp [strcmp, ha0, hc], ?_⟩
        simp [hiff]
      · refine ⟨(a : Int) - (b : Int), by simp [strcmp, hab], ?_⟩
        constructor
        · intro h
          omega
        · intro h
          simp only [List.cons.injEq] at h
          exact absurd h.1 hab

/-- Under `CompareEvents.safe`, when `pipe`, `fork`, `read` and `fopen`
succeed, `compare_output` returns 1 if the captured output equals the answer
file and 0 otherwise, and restores the descriptor table. -/
theorem compare_output_terminated (ev : CompareEvents) (s : Judge) (c : Child)
    (out ans : List Nat) (hp : ev.pipe_ok = true) (hs : ev.spawn = .child c)
    (hr : ev.pipe_read = some out) (ha : ev.answer_file = some ans) (hsafe : ev.safe) :
    compare_output ev s =
      some (if out = ans then 1 else 0, { s with compare_calls := s.compare_calls + 1 }) := by
  obtain ⟨hol, hal, hes, hnul, ho0, ha0⟩ := hsafe out ans hr ha
  have hlt : out.length < ev.output_stale.length := by
    rcases Nat.lt_or_ge out.length ev.output_stale.length with h | h
    · exact h
    · rw [List.getElem?_eq_none h] at hnul
      cases hnul
  have hget : ev.output_stale[out.length] = 0 := by
    rw [List.getElem?_eq_getElem hlt] at hnul
    exact Option.some.inj hnul
  have hbuf : (read_into ev.output_stale MAX_FILENAME_LENGTH out).2 =
      out ++ 0 :: ev.output_stale.drop (out.length + 1) := by
    simp only [read_into, List.take_of_length_le (Nat.le_of_lt hol)]
    rw [List.drop_eq_getElem_cons hlt, hget]
  have hlt2 : ans.length < ev.expected_stale.length := by omega
  have hexp1 : (fread ev.expected_stale 1 MAX_FILENAME_LENGTH ans).1 = ans.length := by
    simp only [fread, read_into, Nat.one_mul, Nat.div_one, List.length_take]
    omega
  have hexp2 : (fread ev.expected_stale 1 MAX_FILENAME_LENGTH ans).2 =
      ans ++ ev.expected_stale[ans.length] :: ev.expected_stale.drop (ans.length + 1) := by
    simp only [fread, read_into, Nat.one_mul, List.take_of_length_le (Nat.le_of_lt hal)]
    rw [List.drop_eq_getElem_cons hlt2]
  have hstore : store (fread ev.expected_stale 1 MAX_FILENAME_LENGTH ans).2
      (fread ev.expected_stale 1 MAX_FILENAME_LENGTH ans).1 0 =
      some (ans ++ 0 :: ev.expected_stale.drop (ans.length + 1)) := by
    rw [hexp1, hexp2]
    generalize ev.expected_stale[ans.length] = x
    generalize ev.expected_stale.drop (ans.length + 1) = rest
    have hlen : ans.length < (ans ++ x :: rest).length := by simp
    simp only [store, hlen, if_true]
    rw [List.set_append_right _ _ (Nat.le_refl _)]
    simp
  obtain ⟨d, hd, hiff⟩ := strcmp_terminated out ans (ev.output_stale.drop (out.length + 1))
    (ev.expected_stale.drop (ans.length + 1)) ho0 ha0
  unfold compare_output
  simp only [hp, hs, hr, ha, hbuf, hstore, hd, pipe, fd_open, close, List.erase_cons_head,
    Bool.not_true, Bool.false_eq_true, if_false]
  by_cases hoa : out = ans
  · simp [hoa, hiff.2 hoa]
  · have hd0 : ¬ d = 0 := fun h => hoa (hiff.1 h)
    simp [hoa, hd0]

/-- Under `CompareEvents.safe` every call of `compare_output` has a defined
result. -/
theorem compare_output_defined (ev : CompareEvents) (s : Judge) (hsafe : ev.safe) :
    ∃ r t, compare_output ev s = some (r, t) := by
  cases hp : ev.pipe_ok with
  | false => simp [compare_output, hp]
  | true =>
    cases hs : ev.spawn with
    | fork_failed => simp [compare_output, hp, hs]
    | child c =>
      cases hr : ev.pipe_read with
      | none => simp [compare_output, hp, hs, hr]
      | some out =>
        cases ha : ev.answer_file with
        | none => simp [compare_output, hp, hs, hr, ha]
        | some ans => exact ⟨_, _, compare_output_terminated ev s c out ans hp hs hr ha hsafe⟩

theorem main_test_case_defined (timelimit : Int) (e : Dirent) (s : Judge)
    (hsafe : e.cmp.safe) : ∃ t, main_test_case timelimit e s = some t := by
  unfold main_test_case
  simp only []
  split
  · rename_i h0
    obtain ⟨r, t, hrt⟩ := compare_output_defined e.cmp
      { (run_target timelimit e.run { s with total_tests := s.total_tests + 1 }).2 with
        total_execution_time :=
          (run_target timelimit e.run
            { s with total_tests := s.total_tests + 1 }).2.total_execution_time +
            execution_time e.start_time e.end_time } hsafe
    simp only [] at hrt
    rw [hrt]
    simp only []
    split
    · exact ⟨_, rfl⟩
    · split <;> exact ⟨_, rfl⟩
  · split
    · exact ⟨_, rfl⟩
    · split <;> exact ⟨_, rfl⟩

theorem main_loop_defined (timelimit : Int) :
    ∀ (l : List Dirent) (k : Nat) (s : Judge), (∀ e ∈ l, e.cmp.safe) →
      ∃ t, main_loop timelimit l k s = some t := by
  intro l
  induction l with
  | nil => exact fun k s _ => ⟨s, rfl⟩
  | cons e rest ih =>
    intro k s hsafe
    have hrest : ∀ x ∈ rest, x.cmp.safe := fun x hx => hsafe x (List.mem_cons_of_mem _ hx)
    unfold main_loop
    split
    · split
      · split
        · obtain ⟨u, hu⟩ := main_test_case_defined timelimit e s
            (hsafe e (List.mem_cons_self _ _))
          rw [hu]
          exact ih (k + 1) u hrest
        · exact ih (k + 1) s hrest
      · exact ih k s hrest
    · exact ⟨s, rfl⟩

/-- A session all of whose comparisons are `CompareEvents.safe` runs to its
end: `main` returns an exit status and a final state. -/
theorem main_defined (sess : Session)
    (hsafe : ∀ entries, sess.dir = some entries → ∀ e ∈ entries, e.cmp.safe) :
    ∃ rc st, main sess = some (rc, st) := by
  unfold main
  simp only []
  split
  · exact ⟨_, _, rfl⟩
  · split
    · exact ⟨_, _, rfl⟩
    · split
      · exact ⟨_, _, rfl⟩
      · split
        · exact ⟨_, _, rfl⟩
        · split
          · exact ⟨_, _, rfl⟩
          · rename_i entries hd
            obtain ⟨u, hu⟩ := main_loop_defined _ entries 0
              { Judge.init sess.fds with open_fds := (fd_open (Judge.init sess.fds).open_fds).2 }
              (hsafe entries hd)
            simp only [] at hu
            rw [hu]
            exact ⟨_, _, rfl⟩

/-- When the toolchain process exits with a nonzero status, or `execlp`
fails in the child, or `fork` fails, `main` returns 1 and the globals are as
at program start: `total_tests` and every other counter and the time total
are 0, and no test case was handled. -/
theorem compile_failure_aborts (sess : Session)
    (h : sess.compile = .fork_failed ∨ sess.compile = .child .exec_failed ∨
      ∃ code, code % 256 ≠ 0 ∧ sess.compile = .child (.ran (.exited code))) :
    main sess = some (1, Judge.init sess.fds) ∧ (Judge.init sess.fds).total_tests = 0 := by
  have hc : compile_target sess.compile ≠ 0 := by
    rcases h with h | h | ⟨code, hcode, h⟩
    · simp [h, compile_target]
    · simp [h, compile_target, Child.fin, WEXITSTATUS_exited, EXIT_FAILURE]
    · rw [h]
      simp only [compile_target, Child.fin, WEXITSTATUS_exited]
      omega
  refine ⟨?_, rfl⟩
  unfold main
  simp only []
  split
  · rfl
  · split
    · rfl
    · split
      · rfl
      · simp [hc]

/-- An admitted test case whose child exits with status 2 changes none of
the four outcome counters. -/
theorem exit_two_changes_no_counter :
    main_test_case 1 (sample_entry (.exited 2)) (Judge.init [0, 1, 2]) =
      some { total_tests := 1, correct_tests := 0, timeout_tests := 0,
             runtime_error_tests := 0, wrong_answer_tests := 0, total_execution_time := 15,
             open_fds := [3, 0, 1, 2], compare_calls := 0 } := by
  decide

/-! ## Properties stated by the specification -/

/-- C1: in every session whose wait statuses are exits or kills by a signal,
whatever `compare_output` returns, the final counters satisfy
`correct_tests + wrong_answer_tests + timeout_tests + runtime_error_tests ≤ total_tests`. -/
theorem classified_le_total (sess : Session) (rc : Int) (st : Judge) (hv : sess.valid)
    (h : main sess = some (rc, st)) :
    st.correct_tests + st.wrong_answer_tests + st.timeout_tests + st.runtime_error_tests
      ≤ st.total_tests := by
  rcases main_completed sess rc st h with ⟨_, h0⟩ | ⟨entries, timelimit, u, hd, _, hu, hst⟩
  · subst h0
    simp [Judge.init]
  · have hv2 : ∀ e ∈ entries, e.run.spawn.valid := by
      simpa [Session.valid, hd] using hv
    have := main_loop_classified_le timelimit entries 0 _ u hv2 hu
      (by simp [Judge.classified_tests, Judge.init])
    subst hst
    simpa [Judge.classified_tests] using this

/-- Witness of C1: a session of six test cases ending in six different ways. -/
theorem classified_le_total_witness :
    (sample_session [sample_entry (.exited 0), sample_entry (.exited 1),
        sample_entry (.exited 2), sample_entry (.signaled 14 false),
        sample_entry (.signaled 11 true), sample_entry (.exited 124)]).valid ∧
      (1 : Nat) + 0 + 2 + 2 ≤ 6 :=
  ⟨by decide,
    classified_le_total
      (sample_session [sample_entry (.exited 0), sample_entry (.exited 1),
        sample_entry (.exited 2), sample_entry (.signaled 14 false),
        sample_entry (.signaled 11 true), sample_entry (.exited 124)]) 0
      { total_tests := 6, correct_tests := 1, timeout_tests := 2, runtime_error_tests := 2,
        wrong_answer_tests := 0, total_execution_time := 76,
        open_fds := [9, 8, 7, 6, 5, 4, 0, 1, 2], compare_calls := 1 }
      (by decide) (by decide)⟩

/-- C2, as stated, fails: an admitted test case whose child exits with
status 0 and whose answer file cannot be opened by `compare_output` (which
returns -1) changes none of the four outcome counters. -/
theorem unopenable_answer_changes_no_counter :
    main_test_case 1 unopenable_entry (Judge.init [0, 1, 2]) =
        some { total_tests := 1, correct_tests := 0, timeout_tests := 0,
               runtime_error_tests := 0, wrong_answer_tests := 0, total_execution_time := 15,
               open_fds := [3, 0, 1, 2], compare_calls := 1 } ∧
      ¬ one_counter_incremented (Judge.init [0, 1, 2])
        { total_tests := 1, correct_tests := 0, timeout_tests := 0,
          runtime_error_tests := 0, wrong_answer_tests := 0, total_execution_time := 15,
          open_fds := [3, 0, 1, 2], compare_calls := 1 } :=
  ⟨by decide, by simp [one_counter_incremented, Judge.init]⟩

/-- C2, amended: handling one admitted test case (any exit code, any signal,
any failure of `pipe`, `fork`, `execlp` or `read`, any result of
`compare_output`) increments at most one of the four outcome counters, by
one, and leaves the others unchanged; exactly one is incremented when the
child is killed by a signal, or exits with status 1, or exits with status
124 or 125 and its output is read, or exits with status 0, its output is
read and `compare_output` gets as far as the comparison. -/
theorem test_case_counter_update (timelimit : Int) (e : Dirent) (s t : Judge)
    (hv : e.run.spawn.valid) (h : main_test_case timelimit e s = some t) :
    (one_counter_incremented s t ∨ no_counter_changed s t) ∧
      (e.classified → one_counter_incremented s t) :=
  (main_test_case_counters timelimit e s t hv h).2

/-- Witness of the amended C2: a test case killed by `SIGSEGV`. -/
theorem test_case_counter_update_witness :
    (sample_entry (.signaled 11 true)).run.spawn.valid ∧
      (one_counter_incremented (Judge.init [0, 1, 2])
          { total_tests := 1, correct_tests := 0, timeout_tests := 0,
            runtime_error_tests := 1, wrong_answer_tests := 0, total_execution_time := 8,
            open_fds := [3, 0, 1, 2], compare_calls := 0 } ∨
        no_counter_changed (Judge.init [0, 1, 2])
          { total_tests := 1, correct_tests := 0, timeout_tests := 0,
            runtime_error_tests := 1, wrong_answer_tests := 0, total_execution_time := 8,
            open_fds := [3, 0, 1, 2], compare_calls := 0 }) :=
  ⟨by decide,
    (test_case_counter_update 1 (sample_entry (.signaled 11 true)) (Judge.init [0, 1, 2])
      { total_tests := 1, correct_tests := 0, timeout_tests := 0,
        runtime_error_tests := 1, wrong_answer_tests := 0, total_execution_time := 8,
        open_fds := [3, 0, 1, 2], compare_calls := 0 } (by decide) (by decide)).1⟩

/-- C3 at a failing input: the candidate prints `3`, the answer file holds
`3`, and `compare_output` returns 0 (Mismatch), because `output_buffer`
gets no terminating NUL and still holds `2345` after the byte that was read. -/
theorem compare_output_stale_mismatch :
    stale_cmp.pipe_read = some [51] ∧ stale_cmp.answer_file = some [51] ∧
      stale_cmp.output_stale.length = MAX_FILENAME_LENGTH ∧
      compare_output stale_cmp (Judge.init [0, 1, 2]) =
        some (0, { Judge.init [0, 1, 2] with compare_calls := 1 }) :=
  ⟨by decide, by decide, by decide, by decide⟩

/-- C4: when the child of `run_target` is killed by `SIGALRM` (whatever the
time limit), `run_target` returns 124 and the test case raises
`timeout_tests` by one, leaves `runtime_error_tests`, `correct_tests` and
`wrong_answer_tests` unchanged and does not call `compare_output`. -/
theorem timeout_classified (timelimit : Int) (e : Dirent) (s : Judge) (c : Child)
    (core : Bool) (hp : e.run.pipe_ok = true) (hs : e.run.spawn = .child c)
    (hc : c.fin = .signaled SIGALRM core) :
    (∀ s0, (run_target timelimit e.run s0).1 = 124) ∧
      ∃ t, main_test_case timelimit e s = some t ∧
        t.timeout_tests = s.timeout_tests + 1 ∧
        t.runtime_error_tests = s.runtime_error_tests ∧
        t.correct_tests = s.correct_tests ∧
        t.wrong_answer_tests = s.wrong_answer_tests ∧
        t.compare_calls = s.compare_calls ∧
        t.total_tests = s.total_tests + 1 := by
  have hv : (ChildEnd.signaled SIGALRM core).valid := by
    simp [ChildEnd.valid, SIGALRM]
  have hrt := fun s0 => run_target_signaled timelimit e.run s0 c SIGALRM core hp hs hc hv
  refine ⟨fun s0 => by rw [hrt s0]; simp, ?_⟩
  unfold main_test_case
  simp only [hrt]
  simp

/-- Witness of C4. -/
theorem timeout_classified_witness :
    (sample_entry (.signaled SIGALRM false)).run.pipe_ok = true ∧
      (run_target 1 (sample_entry (.signaled SIGALRM false)).run (Judge.init [0, 1, 2])).1
        = 124 :=
  ⟨rfl,
    (timeout_classified 1 (sample_entry (.signaled SIGALRM false)) (Judge.init [0, 1, 2])
      (.ran (.signaled SIGALRM false)) false rfl rfl rfl).1 (Judge.init [0, 1, 2])⟩

/-- C5: when the child of `run_target` exits with status 1, whatever it
printed and whether or not `read` succeeds, the test case raises
`runtime_error_tests` by exactly one, leaves `correct_tests`,
`wrong_answer_tests` and `timeout_tests` unchanged and does not call
`compare_output`. -/
theorem exit_one_runtime_error (timelimit : Int) (e : Dirent) (s : Judge) (c : Child)
    (code : Nat) (hp : e.run.pipe_ok = true) (hs : e.run.spawn = .child c)
    (hc : c.fin = .exited code) (h1 : code % 256 = 1) :
    ∃ t, main_test_case timelimit e s = some t ∧
      t.runtime_error_tests = s.runtime_error_tests + 1 ∧
      t.correct_tests = s.correct_tests ∧
      t.wrong_answer_tests = s.wrong_answer_tests ∧
      t.timeout_tests = s.timeout_tests ∧
      t.compare_calls = s.compare_calls ∧
      t.total_tests = s.total_tests + 1 := by
  have hrt := fun s0 => run_target_exited timelimit e.run s0 c code hp hs hc
  unfold main_test_case
  simp only [hrt, h1]
  cases e.run.pipe_read <;> simp

/-- Witness of C5: the child exits with status 1 after printing `3`. -/
theorem exit_one_runtime_error_witness :
    (sample_entry (.exited 1)).run.pipe_ok = true ∧
      ∃ t, main_test_case 1 (sample_entry (.exited 1)) (Judge.init [0, 1, 2]) = some t ∧
        t.runtime_error_tests = (Judge.init [0, 1, 2]).runtime_error_tests + 1 ∧
        t.correct_tests = (Judge.init [0, 1, 2]).correct_tests ∧
        t.wrong_answer_tests = (Judge.init [0, 1, 2]).wrong_answer_tests ∧
        t.timeout_tests = (Judge.init [0, 1, 2]).timeout_tests ∧
        t.compare_calls = (Judge.init [0, 1, 2]).compare_calls ∧
        t.total_tests = (Judge.init [0, 1, 2]).total_tests + 1 :=
  ⟨rfl,
    exit_one_runtime_error 1 (sample_entry (.exited 1)) (Judge.init [0, 1, 2])
      (.ran (.exited 1)) 1 rfl rfl rfl rfl⟩

/-- C6 at a failing input: the toolchain process is killed by signal 9, so
the compilation has failed, but `compile_target` returns `WEXITSTATUS`,
which is 0; `main` does not abort, handles the test case of the listing and
returns 0 with `total_tests = 1`. -/
theorem signaled_toolchain_not_aborted :
    (ChildEnd.signaled 9 false).status = 9 ∧
      compile_target killed_toolchain_session.compile = 0 ∧
      main killed_toolchain_session =
        some (0, { total_tests := 1, correct_tests := 1, timeout_tests := 0,
                   runtime_error_tests := 0, wrong_answer_tests := 0,
                   total_execution_time := 15, open_fds := [4, 0, 1, 2],
                   compare_calls := 1 }) :=
  ⟨by decide, by decide, by decide⟩

/-- C7, as stated, fails: twenty regular files without answer file followed
by one regular file with an answer file give `total_tests = 0`, although one
regular input file has a matching answer file. -/
theorem late_test_not_counted :
    main (sample_session (List.replicate 20 orphan_entry ++ [sample_entry (.exited 0)])) =
        some (0, Judge.init [0, 1, 2]) ∧
      (Judge.init [0, 1, 2]).total_tests = 0 ∧
      (List.replicate 20 orphan_entry ++ [sample_entry (.exited 0)]).countP
        (fun e => e.is_reg && e.answer_exists) = 1 :=
  ⟨by decide, rfl, by decide⟩

/-- C7, amended: after a completed session `total_tests` is the number of
entries with a matching answer file among the first `MAX_TEST_INPUTS`
regular entries of the listing; when the listing has at most
`MAX_TEST_INPUTS` regular entries this is the number of regular input files
with a matching answer file. -/
theorem total_tests_first_regular (sess : Session) (entries : List Dirent) (st : Judge)
    (hd : sess.dir = some entries) (h : main sess = some (0, st)) :
    st.total_tests =
        ((entries.filter (fun e => e.is_reg)).take MAX_TEST_INPUTS).countP
          (fun e => e.answer_exists) ∧
      ((entries.filter (fun e => e.is_reg)).length ≤ MAX_TEST_INPUTS →
        st.total_tests = entries.countP (fun e => e.is_reg && e.answer_exists)) := by
  have key : st.total_tests =
      ((entries.filter (fun e => e.is_reg)).take MAX_TEST_INPUTS).countP
        (fun e => e.answer_exists) := by
    rcases main_completed sess 0 st h with ⟨h0, _⟩ | ⟨entries2, timelimit, u, hd2, _, hu, hst⟩
    · exact absurd h0 (by decide)
    · rw [hd] at hd2
      cases hd2
      have := main_loop_total_tests timelimit entries 0 _ u hu
      subst hst
      simpa [Judge.init] using this
  refine ⟨key, fun hlen => ?_⟩
  rw [key, List.take_of_length_le hlen, List.countP_filter]
  congr 1
  funext e
  cases e.is_reg <;> cases e.answer_exists <;> rfl

/-- Witness of the amended C7. -/
theorem total_tests_first_regular_witness :
    (1 : Nat) =
      ((([orphan_entry, sample_entry (.exited 2)] : List Dirent).filter
        (fun e => e.is_reg)).take MAX_TEST_INPUTS).countP (fun e => e.answer_exists) :=
  (total_tests_first_regular (sample_session [orphan_entry, sample_entry (.exited 2)])
    [orphan_entry, sample_entry (.exited 2)]
    { total_tests := 1, correct_tests := 0, timeout_tests := 0, runtime_error_tests := 0,
      wrong_answer_tests := 0, total_execution_time := 15, open_fds := [4, 0, 1, 2],
      compare_calls := 0 } rfl (by decide)).1

/-- C8 at a failing input: the child exits with status 0, `main` measures
8 ms around `run_target`, and `total_execution_time` grows by 15 ms, the
7 ms measured inside `run_target` having been added as well. -/
theorem completed_run_time_added_twice :
    execution_time (sample_entry (.exited 0)).start_time (sample_entry (.exited 0)).end_time = 8 ∧
      (main_test_case 1 (sample_entry (.exited 0)) (Judge.init [0, 1, 2])).map
        (fun t => t.total_execution_time) = some 15 :=
  ⟨by decide, by decide⟩

/-- C9 at a failing input: after a call of `run_target` whose child exits
with status 0, with descriptors 0, 1 and 2 open before the call, descriptor
3 (the read end of the pipe) is still open. -/
theorem run_target_leaves_read_end_open :
    (run_target 1 (sample_run (.exited 0)) (Judge.init [0, 1, 2])).2.open_fds = [3, 0, 1, 2] ∧
      (Judge.init [0, 1, 2]).open_fds = [0, 1, 2] :=
  ⟨by decide, rfl⟩

/-- C10 at a failing input: for an answer file of 1024 bytes `fread` returns
1024, which is not an index of the 1024-byte array `expected_line`; the
store of the NUL is out of bounds and `compare_output` has no defined
result. -/
theorem nul_index_out_of_bounds :
    (fread long_answer_cmp.expected_stale 1 MAX_FILENAME_LENGTH
        (List.replicate 1024 65)).1 = 1024 ∧
      ¬ (fread long_answer_cmp.expected_stale 1 MAX_FILENAME_LENGTH
        (List.replicate 1024 65)).1 < MAX_FILENAME_LENGTH ∧
      compare_output long_answer_cmp (Judge.init [0, 1, 2]) = none :=
  ⟨by decide, by decide, by decide⟩

end Autojudge
